import Mathlib

/-!
Shallow embedding of the enrichment pipeline in `src/main.rs`.

Modelling conventions, fixed throughout this file:
  - Finite `f32` values are modelled as rationals (`ℚ`); the special values
    produced by dividing by zero are modelled explicitly by `FloatVal`.
  - `chrono::NaiveDate` is modelled as a day number (`ℤ`); `NaiveDate::succ`
    is `+ 1`.  No claim concerns the textual rendering of dates, which is
    abstracted as the decimal rendering of the day number.
  - A `HashMap` is modelled as a function into `Option`, built by folding an
    overwrite-on-duplicate insert over the entry list, exactly as Rust's
    `HashMap::from_iter` (used via `.collect()`) does.
  - Each input line of each of the three streams is modelled by its per-line
    parse outcome (`Option` of the parsed record; `none` is a line the CSV /
    JSON layer rejects), since the byte-level parsers live in external crates.
  - Every `println!` diagnostic is modelled by a `Diag` value, emitted in the
    order the corresponding `println!` executes.
  - A Rust panic inside row serialization is modelled by `Option.none` from
    `serialize_price`; `writeRows` aborts there, dropping all later rows,
    because the panic unwinds out of the writing loop.
-/

namespace Anixe

/-- Value of an `f32` computation: a finite value (modelled as a rational),
a signed infinity, or NaN. -/
inductive FloatVal where
  | finite (q : ℚ)
  | inf (pos : Bool)
  | nan
deriving DecidableEq

/-- Whether an `f32` value is finite (neither an infinity nor NaN). -/
def FloatVal.isFinite : FloatVal → Bool
  | .finite _ => true
  | _ => false

/-- IEEE-754 division of a finite `f32` by a nonnegative integer count, as in
`input.price / (input.adults + input.children) as f32` in `Output::new`
(line 122): dividing a nonzero finite value by zero yields a signed infinity,
and dividing zero by zero yields NaN. -/
def f32div (p : ℚ) (n : ℕ) : FloatVal :=
  if n = 0 then
    if p = 0 then .nan
    else if 0 < p then .inf true
    else .inf false
  else .finite (p / n)

/-- Rounding to the nearest integer with ties away from zero: the documented
behaviour of Rust's `f32::round`, used by `serialize_price` (line 23). -/
def roundAway (q : ℚ) : ℤ :=
  if 0 ≤ q then ⌊q + 1 / 2⌋ else -⌊-q + 1 / 2⌋

/-- Rounding to the nearest integer with ties to even: the rounding applied
by Rust's fixed-precision float formatting, used for the hotel category
(line 115). -/
def roundHalfEven (q : ℚ) : ℤ :=
  if q - ⌊q⌋ < 1 / 2 then ⌊q⌋
  else if 1 / 2 < q - ⌊q⌋ then ⌊q⌋ + 1
  else if ⌊q⌋ % 2 = 0 then ⌊q⌋ else ⌊q⌋ + 1

/-- Fixed-point formatting with exactly one decimal digit, modelling the
format specifier with precision 1 applied to `hotel.category` in
`Output::new` (line 115). -/
def fmtFixed1 (q : ℚ) : String :=
  (if roundHalfEven (10 * q) < 0 then "-" else "")
    ++ toString ((roundHalfEven (10 * q)).natAbs / 10)
    ++ "." ++ toString ((roundHalfEven (10 * q)).natAbs % 10)

/-- One parsed primary record: the `Input` struct (lines 46-59). -/
structure Input where
  city_code : String
  hotel_code : String
  room_type : String
  room_code : String
  meal : String
  checkin : ℤ
  adults : ℕ
  children : ℕ
  price : ℚ
  source : String
deriving DecidableEq

/-- One hotel reference entry: the `Hotel` struct (lines 61-67). -/
structure Hotel where
  id : String
  name : String
  category : ℚ
  city : String
deriving DecidableEq

/-- One room-name reference entry: the `RoomName` struct (lines 69-75). -/
structure RoomName where
  hotel_code : String
  source : String
  room_name : String
  room_code : String
deriving DecidableEq

/-- Composite key of the room-name mapping: the `RoomKey` struct
(lines 79-84). -/
structure RoomKey where
  hotel_code : String
  source : String
  room_code : String
deriving DecidableEq

/-- One output record: the `Output` struct (lines 86-104), with the price
kept as the (possibly non-finite) `f32` value; its textual form is produced
by `serialize_price` at writing time. -/
structure Output where
  room_type_with_meal : String
  room_code : String
  source : String
  hotel_name : String
  city_name : String
  city_code : String
  hotel_category : String
  pax : ℕ
  adults : ℕ
  children : ℕ
  room_name : String
  checkin : ℤ
  checkout : ℤ
  price : FloatVal
deriving DecidableEq

/-- Construction of an output record from an input record, its resolved
hotel and its resolved room name: `Output::new` (lines 106-125). -/
def Output.new (input : Input) (hotel : Hotel) (room_name : String) : Output where
  room_type_with_meal := input.room_type ++ " " ++ input.meal
  room_code := input.room_code
  source := input.source
  hotel_name := hotel.name
  city_name := hotel.city
  city_code := input.city_code
  hotel_category := fmtFixed1 hotel.category
  pax := input.adults + input.children
  adults := input.adults
  children := input.children
  room_name := room_name
  checkin := input.checkin
  checkout := input.checkin + 1
  price := f32div input.price (input.adults + input.children)

/-- The empty map (`HashMap::new`). -/
def emptyMap {K V : Type} : K → Option V := fun _ => none

/-- Insertion into a map, overwriting any earlier value under the same key
(`HashMap::insert`). -/
def insertMap {K V : Type} [DecidableEq K] (m : K → Option V) (k : K) (v : V) :
    K → Option V :=
  fun k' => if k' = k then some v else m k'

/-- Building a map from an entry list by left-to-right insertion: the
semantics of `.collect::<HashMap<_, _>>()` on an iterator of pairs. -/
def buildMap {K V : Type} [DecidableEq K] (l : List (K × V)) : K → Option V :=
  l.foldl (fun m p => insertMap m p.1 p.2) emptyMap

/-- Diagnostic messages printed to the side channel, one constructor per
`println!` site of the per-line / per-record paths. -/
inductive Diag where
  | invalidLine
  | invalidHotelLine
  | invalidRoomLine
  | hotelMiss (hotel_code : String)
  | roomMiss (hotel_code room_code : String)
deriving DecidableEq

/-- Diagnostics emitted by a loader for its malformed lines, one `d` per
rejected line, in order of appearance. -/
def lineDiags {α : Type} (d : Diag) : List (Option α) → List Diag
  | [] => []
  | none :: ls => d :: lineDiags d ls
  | some _ :: ls => lineDiags d ls

/-- Hotel reference loader: `prepare_hotels` (lines 169-188).  Malformed
lines are dropped with a diagnostic; the surviving entries are collected
into a map keyed by `id`, later entries overwriting earlier ones. -/
def prepare_hotels (lines : List (Option Hotel)) :
    (String → Option Hotel) × List Diag :=
  (buildMap (lines.reduceOption.map fun item => (item.id, item)),
   lineDiags .invalidHotelLine lines)

/-- Composite key extracted from a room-name reference entry
(lines 207-211). -/
def roomKeyOf (item : RoomName) : RoomKey :=
  ⟨item.hotel_code, item.source, item.room_code⟩

/-- Room-name reference loader: `prepare_room_names` (lines 190-215). -/
def prepare_room_names (lines : List (Option RoomName)) :
    (RoomKey → Option String) × List Diag :=
  (buildMap (lines.reduceOption.map fun item => (roomKeyOf item, item.room_name)),
   lineDiags .invalidRoomLine lines)

/-- Composite key built from a primary record (lines 241-245). -/
def inputRoomKey (item : Input) : RoomKey :=
  ⟨item.hotel_code, item.source, item.room_code⟩

/-- Enrichment of one parsed primary record: the closure at lines 235-256.
Both lookups are evaluated eagerly (two `let` statements), each printing its
miss diagnostic via `or_else`; the output is produced only when both
lookups hit (the final `and_then` / `map` zip). -/
def processRecord (hotels : String → Option Hotel)
    (room_names : RoomKey → Option String) (item : Input) :
    Option Output × List Diag :=
  ((match hotels item.hotel_code, room_names (inputRoomKey item) with
    | some hotel, some room => some (Output.new item hotel room)
    | _, _ => none),
   (if (hotels item.hotel_code).isNone then [Diag.hotelMiss item.hotel_code] else [])
     ++ (if (room_names (inputRoomKey item)).isNone then
          [Diag.roomMiss item.hotel_code item.room_code] else []))

/-- One primary line: a malformed line (lines 230-234) is dropped with a
diagnostic; a parsed line goes through `processRecord`. -/
def processLine (hotels : String → Option Hotel)
    (room_names : RoomKey → Option String) :
    Option Input → Option Output × List Diag
  | none => (none, [Diag.invalidLine])
  | some item => processRecord hotels room_names item

/-- Output records of `process_input` (lines 217-257), in line order. -/
def processOutputs (hotels : String → Option Hotel)
    (room_names : RoomKey → Option String) (lines : List (Option Input)) :
    List Output :=
  lines.filterMap fun l => (processLine hotels room_names l).1

/-- Diagnostics of `process_input`, in line order. -/
def processDiags (hotels : String → Option Hotel)
    (room_names : RoomKey → Option String) : List (Option Input) → List Diag
  | [] => []
  | l :: ls =>
      (processLine hotels room_names l).2 ++ processDiags hotels room_names ls

/-- The whole primary pass: `process_input` (lines 217-257). -/
def process_input (lines : List (Option Input))
    (hotels : String → Option Hotel) (room_names : RoomKey → Option String) :
    List Output × List Diag :=
  (processOutputs hotels room_names lines, processDiags hotels room_names lines)

/-- The run after the four files are open: `main` (lines 292-295), threading
the two loaded reference maps into the primary pass.  The result is the
output-record list plus all diagnostics. -/
def pipeline (plines : List (Option Input)) (hlines : List (Option Hotel))
    (rlines : List (Option RoomName)) : List Output × List Diag :=
  ((process_input plines (prepare_hotels hlines).1 (prepare_room_names rlines).1).1,
   (prepare_hotels hlines).2 ++ (prepare_room_names rlines).2
     ++ (process_input plines (prepare_hotels hlines).1 (prepare_room_names rlines).1).2)

/-- Textual rendering of the rounded `f32` price, as Rust's default float
display prints it: a whole-valued float prints as its decimal integer
string, infinities print as inf with an optional sign, NaN prints as NaN. -/
def priceDisplay : FloatVal → String
  | .finite q => toString (roundAway (100 * q))
  | .inf true => "inf"
  | .inf false => "-inf"
  | .nan => "NaN"

/-- Price serialization: `serialize_price` (lines 18-28).  The price is
multiplied by 100 and rounded, the result is rendered as text and split two
characters from the right, and a decimal point is put between the parts.
When the rendering is shorter than two characters, the split index
underflows and Rust panics; the panic is modelled by `none`. -/
def serialize_price (price : FloatVal) : Option String :=
  let s := priceDisplay price
  if 2 ≤ s.length then
    some (String.mk (s.data.take (s.length - 2) ++ '.' :: s.data.drop (s.length - 2)))
  else none

/-- Textual rendering of a date (day number); no claim concerns its exact
form. -/
def dateStr (d : ℤ) : String := toString d

/-- The field strings of one output row, in the order of the `Output` struct
fields; `none` when price serialization panics. -/
def outputFields (o : Output) : Option (List String) :=
  (serialize_price o.price).map fun p =>
    [o.room_type_with_meal, o.room_code, o.source, o.hotel_name, o.city_name,
     o.city_code, o.hotel_category, toString o.pax, toString o.adults,
     toString o.children, o.room_name, dateStr o.checkin, dateStr o.checkout, p]

/-- The header field names of the report, from the `Output` struct field
names and the serde rename of the first field (lines 86-104). -/
def headerFields : List String :=
  ["room_type meal", "room_code", "source", "hotel_name", "city_name",
   "city_code", "hotel_category", "pax", "adults", "children", "room_name",
   "checkin", "checkout", "price"]

/-- The writing loop of `store_output` (lines 267-271), with the csv
writer's header state threaded through: the header row is written only
together with the first successfully serialized record (the csv writer
emits the header upon the first `serialize` call, and the panic inside
`serialize_price` strikes during that call, before anything of the row —
header included — is committed).  Each emitted line joins its fields with
the semicolon delimiter.  A panic aborts the run, so all later rows are
lost. -/
def writeLoop : Bool → List Output → List String
  | _, [] => []
  | headerDone, o :: rest =>
      match outputFields o with
      | some fs =>
          if headerDone then String.intercalate ";" fs :: writeLoop true rest
          else String.intercalate ";" headerFields
                 :: String.intercalate ";" fs :: writeLoop true rest
      | none => []

/-- The emitted report: `store_output` (lines 259-282).  With no surviving
record, no `serialize` call ever happens and the report is empty — no
header row is written. -/
def store_output (rows : List Output) : List String :=
  writeLoop false rows

/-! Helper lemmas shared by the claim theorems. -/

theorem buildMap_append_last {K V : Type} [DecidableEq K] (l : List (K × V))
    (k : K) (v : V) : buildMap (l ++ [(k, v)]) k = some v := by
  simp [buildMap, List.foldl_append, insertMap]

theorem f32div_of_pos {p : ℚ} {n : ℕ} (h : 0 < n) :
    f32div p n = .finite (p / n) := by
  simp [f32div, Nat.pos_iff_ne_zero.mp h]

theorem reduceOption_map_some {α : Type} (l : List α) :
    (l.map some).reduceOption = l := by
  induction l with
  | nil => rfl
  | cons a l ih => simp [ih]

theorem natRepr_len (m : ℕ) (h : m < 10) : (toString m).length = 1 := by
  revert h
  revert m
  decide

theorem foldl_insert_not_mem {K V : Type} [DecidableEq K] (l : List (K × V))
    (m : K → Option V) (k : K) (h : ∀ p ∈ l, p.1 ≠ k) :
    l.foldl (fun m p => insertMap m p.1 p.2) m k = m k := by
  induction l generalizing m with
  | nil => rfl
  | cons p rest ih =>
      rw [List.foldl_cons, ih _ fun q hq => h q (List.mem_cons_of_mem p hq)]
      simp [insertMap, Ne.symm (h p (List.mem_cons_self p rest))]

theorem buildMap_last_occurrence {K V : Type} [DecidableEq K]
    (l₁ l₂ : List (K × V)) (k : K) (v : V) (h : ∀ p ∈ l₂, p.1 ≠ k) :
    buildMap (l₁ ++ [(k, v)] ++ l₂) k = some v := by
  have e : buildMap (l₁ ++ [(k, v)] ++ l₂) k = buildMap (l₁ ++ [(k, v)]) k := by
    rw [buildMap, buildMap, List.foldl_append]
    exact foldl_insert_not_mem l₂ _ k h
  rw [e]
  exact buildMap_append_last l₁ k v

/-- C7: wherever in a reference stream the last well-formed line carrying a
key sits — with arbitrary lines before it (duplicates of the key included)
and any lines with other keys or malformed lines after it — the resulting
mapping holds that later line's values under the key: later entries
overwrite earlier ones and duplicates are never rejected, in both the hotel
loader and the room-name loader. -/
theorem c7_duplicate_keys_later_wins
    (hl1 hl2 : List (Option Hotel)) (h : Hotel)
    (hh : ∀ h' ∈ hl2.reduceOption, h'.id ≠ h.id)
    (rl1 rl2 : List (Option RoomName)) (rn : RoomName)
    (hr : ∀ rn' ∈ rl2.reduceOption, roomKeyOf rn' ≠ roomKeyOf rn) :
    (prepare_hotels (hl1 ++ [some h] ++ hl2)).1 h.id = some h ∧
    (prepare_room_names (rl1 ++ [some rn] ++ rl2)).1 (roomKeyOf rn)
      = some rn.room_name := by
  constructor
  · have e : ((hl1 ++ [some h] ++ hl2).reduceOption.map fun item => (item.id, item))
        = (hl1.reduceOption.map fun item => (item.id, item)) ++ [(h.id, h)]
            ++ (hl2.reduceOption.map fun item => (item.id, item)) := by
      simp [List.reduceOption_append]
    simp only [prepare_hotels, e]
    refine buildMap_last_occurrence _ _ _ _ fun p hp => ?_
    obtain ⟨h', hmem, rfl⟩ := List.mem_map.mp hp
    exact hh h' hmem
  · have e : ((rl1 ++ [some rn] ++ rl2).reduceOption.map
          fun item => (roomKeyOf item, item.room_name))
        = (rl1.reduceOption.map fun item => (roomKeyOf item, item.room_name))
            ++ [(roomKeyOf rn, rn.room_name)]
            ++ (rl2.reduceOption.map fun item => (roomKeyOf item, item.room_name)) := by
      simp [List.reduceOption_append]
    simp only [prepare_room_names, e]
    refine buildMap_last_occurrence _ _ _ _ fun p hp => ?_
    obtain ⟨rn', hmem, rfl⟩ := List.mem_map.mp hp
    exact hr rn' hmem

/-- Earlier hotel line whose id is duplicated later. -/
def dupHotelA : Hotel := ⟨"H1", "Old Grand", 3, "Paris"⟩

/-- Later hotel line carrying the same id: its values must win. -/
def dupHotelB : Hotel := ⟨"H1", "New Grand", 4, "Paris"⟩

/-- Hotel line with a different id, appearing after the duplicate. -/
def otherHotel : Hotel := ⟨"H2", "Ritz", 5, "London"⟩

/-- Earlier room-name line whose composite key is duplicated later. -/
def dupRoomA : RoomName := ⟨"H1", "SRC1", "Old Double", "101"⟩

/-- Later room-name line carrying the same composite key. -/
def dupRoomB : RoomName := ⟨"H1", "SRC1", "New Double", "101"⟩

/-- Room-name line with a different composite key, after the duplicate. -/
def otherRoom : RoomName := ⟨"H2", "SRC1", "Suite", "201"⟩

/-- Witness for C7: streams holding a duplicate key resolved mid-stream,
followed by a line with another key and a malformed line; the later
duplicate's values win in both mappings. -/
theorem c7_witness :
    (∀ h' ∈ ([some otherHotel, none] : List (Option Hotel)).reduceOption,
        h'.id ≠ dupHotelB.id) ∧
    (∀ rn' ∈ ([some otherRoom, none] : List (Option RoomName)).reduceOption,
        roomKeyOf rn' ≠ roomKeyOf dupRoomB) ∧
    ((prepare_hotels
        ([some dupHotelA] ++ [some dupHotelB] ++ [some otherHotel, none])).1
          dupHotelB.id = some dupHotelB ∧
     (prepare_room_names
        ([some dupRoomA] ++ [some dupRoomB] ++ [some otherRoom, none])).1
          (roomKeyOf dupRoomB) = some dupRoomB.room_name) :=
  ⟨by decide, by decide,
   c7_duplicate_keys_later_wins [some dupHotelA] [some otherHotel, none]
     dupHotelB (by decide) [some dupRoomA] [some otherRoom, none] dupRoomB
     (by decide)⟩

/-- C3: whenever the decimal rendering of the rounded cent value is shorter
than two characters, `serialize_price` panics (modelled by `none`) instead
of producing a price string, because the split index underflows. -/
theorem c3_serialize_price_panics (p : ℚ)
    (h : (toString (roundAway (100 * p))).length < 2) :
    serialize_price (.finite p) = none := by
  simp only [serialize_price, priceDisplay]
  rw [if_neg (by omega)]

/-- Witness for C3 at the claim's own example: a per-person price of 0.05
rounds to cent value 5, whose rendering has length 1, and serialization
panics there. -/
theorem c3_witness :
    (toString (roundAway (100 * (1 / 20 : ℚ)))).length < 2 ∧
    serialize_price (.finite (1 / 20)) = none := by
  have h : roundAway (100 * (1 / 20 : ℚ)) = 5 := by rw [roundAway]; norm_num
  refine ⟨by rw [h]; decide, c3_serialize_price_panics (1 / 20) (by rw [h]; decide)⟩

/-- C4, evaluation at the failing input: a row whose per-person price is
0.03 makes `serialize_price` panic (cent rendering has length 1), so the
process aborts with a non-zero status on a per-record problem, contradicting
the claim that only startup open failures terminate the process. -/
theorem c4_short_cents_panic : serialize_price (.finite (3 / 100)) = none := by
  simp only [serialize_price, priceDisplay]
  rw [show roundAway (100 * (3 / 100 : ℚ)) = 3 by rw [roundAway]; norm_num]
  decide

/-- C2: for a primary record whose hotel code resolves and whose composite
room key resolves, the engine produces exactly one output record and no
diagnostic; its checkout is one day after checkin, its pax is the sum of
adults and children, and its price is the total price divided by pax. -/
theorem c2_enrichment_derived_fields (hotels : String → Option Hotel)
    (room_names : RoomKey → Option String) (item : Input) (hotel : Hotel)
    (room : String) (hh : hotels item.hotel_code = some hotel)
    (hr : room_names (inputRoomKey item) = some room)
    (hpax : 0 < item.adults + item.children) :
    processRecord hotels room_names item = (some (Output.new item hotel room), []) ∧
    (Output.new item hotel room).checkout = item.checkin + 1 ∧
    (Output.new item hotel room).pax = item.adults + item.children ∧
    (Output.new item hotel room).price
      = .finite (item.price / ((item.adults + item.children : ℕ) : ℚ)) := by
  refine ⟨by simp [processRecord, hh, hr], rfl, rfl, ?_⟩
  simp only [Output.new]
  rw [f32div_of_pos hpax]

/-- Sample hotel, matching the worked example of the spec. -/
def grandHotel : Hotel := ⟨"H1", "Grand", 9 / 2, "Paris"⟩

/-- Sample primary record, matching the worked example of the spec. -/
def sampleInput : Input := ⟨"PAR", "H1", "DBL", "101", "BB", 0, 2, 0, 100, "SRC1"⟩

/-- Hotel mapping loaded from a one-line reference stream. -/
def sampleHotels : String → Option Hotel := (prepare_hotels [some grandHotel]).1

/-- Room-name mapping loaded from a one-line reference stream. -/
def sampleRooms : RoomKey → Option String :=
  (prepare_room_names [some ⟨"H1", "SRC1", "Double Room", "101"⟩]).1

/-- Witness for C2 at the spec's worked example. -/
theorem c2_witness :
    sampleHotels "H1" = some grandHotel ∧
    sampleRooms (inputRoomKey sampleInput) = some "Double Room" ∧
    0 < sampleInput.adults + sampleInput.children ∧
    (processRecord sampleHotels sampleRooms sampleInput
        = (some (Output.new sampleInput grandHotel "Double Room"), []) ∧
     (Output.new sampleInput grandHotel "Double Room").checkout
        = sampleInput.checkin + 1 ∧
     (Output.new sampleInput grandHotel "Double Room").pax
        = sampleInput.adults + sampleInput.children ∧
     (Output.new sampleInput grandHotel "Double Room").price
        = .finite (sampleInput.price
            / ((sampleInput.adults + sampleInput.children : ℕ) : ℚ))) :=
  ⟨rfl, rfl, by decide,
   c2_enrichment_derived_fields sampleHotels sampleRooms sampleInput grandHotel
     "Double Room" rfl rfl (by decide)⟩

/-- C9: a record with adults + children = 0 whose lookups both resolve is
neither rejected nor skipped: exactly one output record is produced, and its
unguarded price division yields a non-finite value (an infinity or NaN). -/
theorem c9_pax_zero_not_skipped (hotels : String → Option Hotel)
    (room_names : RoomKey → Option String) (item : Input) (hotel : Hotel)
    (room : String) (hh : hotels item.hotel_code = some hotel)
    (hr : room_names (inputRoomKey item) = some room)
    (hpax : item.adults + item.children = 0) :
    processRecord hotels room_names item = (some (Output.new item hotel room), []) ∧
    (Output.new item hotel room).price.isFinite = false := by
  refine ⟨by simp [processRecord, hh, hr], ?_⟩
  simp only [Output.new, hpax]
  unfold f32div
  rw [if_pos rfl]
  split
  · rfl
  · split <;> rfl

/-- Sample primary record with zero occupants. -/
def zeroPaxInput : Input := ⟨"PAR", "H1", "DBL", "101", "BB", 0, 0, 0, 100, "SRC1"⟩

/-- Witness for C9: the zero-occupant record is enriched, not skipped, and
its price is non-finite. -/
theorem c9_witness :
    sampleHotels "H1" = some grandHotel ∧
    sampleRooms (inputRoomKey zeroPaxInput) = some "Double Room" ∧
    zeroPaxInput.adults + zeroPaxInput.children = 0 ∧
    (processRecord sampleHotels sampleRooms zeroPaxInput
        = (some (Output.new zeroPaxInput grandHotel "Double Room"), []) ∧
     (Output.new zeroPaxInput grandHotel "Double Room").price.isFinite = false) :=
  ⟨rfl, rfl, by decide,
   c9_pax_zero_not_skipped sampleHotels sampleRooms zeroPaxInput grandHotel
     "Double Room" rfl rfl (by decide)⟩

/-- Sample primary record whose hotel code and room key resolve nowhere. -/
def missInput : Input := ⟨"PAR", "H9", "DBL", "R9", "BB", 0, 2, 0, 100, "SRCX"⟩

/-- Counterexample to C1 as stated: with both reference tables empty, the
hotel lookup misses, yet the room-name lookup is still consulted and the
room-name-miss diagnostic is emitted as well — not only the hotel-miss
diagnostic. -/
theorem c1_counterexample :
    processRecord (prepare_hotels []).1 (prepare_room_names []).1 missInput
      = (none, [Diag.hotelMiss "H9", Diag.roomMiss "H9" "R9"]) ∧
    Diag.roomMiss "H9" "R9"
      ∈ (processRecord (prepare_hotels []).1 (prepare_room_names []).1 missInput).2 := by
  constructor
  · rfl
  · decide

/-- C1 amended: a primary record whose hotel code is absent from the hotel
mapping is skipped (no output), but the room-name lookup is still performed:
the hotel-miss diagnostic is emitted first, followed by the room-name-miss
diagnostic exactly when the room-name lookup also misses. -/
theorem c1_hotel_miss_skips_but_consults_rooms (hotels : String → Option Hotel)
    (room_names : RoomKey → Option String) (item : Input)
    (hh : hotels item.hotel_code = none) :
    (processRecord hotels room_names item).1 = none ∧
    (processRecord hotels room_names item).2
      = Diag.hotelMiss item.hotel_code ::
          (if (room_names (inputRoomKey item)).isNone then
            [Diag.roomMiss item.hotel_code item.room_code] else []) := by
  cases hr : room_names (inputRoomKey item) <;> simp [processRecord, hh, hr]

/-- Sample primary record for the C1 witness. -/
def missInput2 : Input := ⟨"LON", "H7", "TWN", "R7", "HB", 0, 1, 0, 50, "SRCY"⟩

/-- Witness for C1's amended statement at a concrete record with empty
reference tables. -/
theorem c1_witness :
    (prepare_hotels []).1 missInput2.hotel_code = none ∧
    ((processRecord (prepare_hotels []).1 (prepare_room_names []).1 missInput2).1
        = none ∧
     (processRecord (prepare_hotels []).1 (prepare_room_names []).1 missInput2).2
        = Diag.hotelMiss missInput2.hotel_code ::
            (if ((prepare_room_names []).1 (inputRoomKey missInput2)).isNone then
              [Diag.roomMiss missInput2.hotel_code missInput2.room_code] else [])) :=
  ⟨rfl,
   c1_hotel_miss_skips_but_consults_rooms (prepare_hotels []).1
     (prepare_room_names []).1 missInput2 rfl⟩

/-- C6: every price string carried by an emitted row is obtained by rounding
one hundred times the price to the nearest integer and reinserting a decimal
point two characters from the right of its decimal rendering: the string
splits as l, a point, and r, with r exactly two characters long and l and r
together the rendering of the rounded cent value. -/
theorem c6_price_format (p : ℚ) (s : String)
    (h : serialize_price (.finite p) = some s) :
    ∃ l r : List Char, s.data = l ++ '.' :: r ∧ r.length = 2 ∧
      l ++ r = (toString (roundAway (100 * p))).data := by
  simp only [serialize_price, priceDisplay] at h
  split at h
  case isTrue h2 =>
    obtain rfl : _ = s := Option.some.inj h
    refine ⟨(toString (roundAway (100 * p))).data.take
              ((toString (roundAway (100 * p))).length - 2),
            (toString (roundAway (100 * p))).data.drop
              ((toString (roundAway (100 * p))).length - 2), rfl, ?_, ?_⟩
    · rw [List.length_drop]
      have h2' : 2 ≤ (toString (roundAway (100 * p))).data.length := h2
      have hl : (toString (roundAway (100 * p))).length
          = (toString (roundAway (100 * p))).data.length := rfl
      omega
    · rw [List.take_append_drop]
  case isFalse => exact absurd h (by simp)

/-- Witness for C6 at price 2: the emitted string is 2.00, which decomposes
as required around the reinserted point. -/
theorem c6_witness :
    serialize_price (.finite 2) = some "2.00" ∧
    (∃ l r : List Char, ("2.00" : String).data = l ++ '.' :: r ∧ r.length = 2 ∧
      l ++ r = (toString (roundAway (100 * (2 : ℚ)))).data) := by
  have h : serialize_price (.finite 2) = some "2.00" := by
    simp only [serialize_price, priceDisplay]
    rw [show roundAway (100 * (2 : ℚ)) = 200 by rw [roundAway]; norm_num]
    decide
  exact ⟨h, c6_price_format 2 "2.00" h⟩

/-- Sample primary record whose per-person price is 0.01. -/
def badPriceInput : Input := ⟨"PAR", "H1", "DBL", "101", "BB", 0, 1, 0, 1 / 100, "SRC1"⟩

/-- An output row that serializes successfully (per-person price 50). -/
def goodRow : Output := Output.new sampleInput grandHotel "Double Room"

/-- An output row whose price serialization panics (cent rendering 1). -/
def badRow : Output := Output.new badPriceInput grandHotel "Double Room"

/-- C5, evaluation at the failing input: when the row whose serialization
panics comes first, the run aborts and the report stays empty — the
following good row, which on its own yields a report, is lost, so a
per-row serialization failure aborts the run instead of continuing with
the next row. -/
theorem c5_row_failure_fatal :
    store_output [badRow, goodRow] = [] ∧
    store_output [goodRow] ≠ [] := by
  have hbp : badRow.price = FloatVal.finite (1 / 100) := by
    simp only [badRow, Output.new, badPriceInput, f32div]
    norm_num
  have hgp : goodRow.price = FloatVal.finite 50 := by
    simp only [goodRow, Output.new, sampleInput, f32div]
    norm_num
  have hbad : serialize_price badRow.price = none := by
    rw [hbp]
    simp only [serialize_price, priceDisplay]
    rw [show roundAway (100 * (1 / 100 : ℚ)) = 1 by rw [roundAway]; norm_num]
    decide
  have hgood : serialize_price goodRow.price = some "50.00" := by
    rw [hgp]
    simp only [serialize_price, priceDisplay]
    rw [show roundAway (100 * (50 : ℚ)) = 5000 by rw [roundAway]; norm_num]
    decide
  constructor
  · simp [store_output, writeLoop, outputFields, hbad]
  · simp [store_output, writeLoop, outputFields, hgood]

/-- Diagnostics of one enriched record are lookup-miss diagnostics only,
never the malformed-line diagnostics of the three parsers. -/
theorem processRecord_diags_forms (hotels : String → Option Hotel)
    (room_names : RoomKey → Option String) (item : Input) :
    Diag.invalidLine ∉ (processRecord hotels room_names item).2 ∧
    Diag.invalidHotelLine ∉ (processRecord hotels room_names item).2 ∧
    Diag.invalidRoomLine ∉ (processRecord hotels room_names item).2 := by
  simp only [processRecord]
  refine ⟨?_, ?_, ?_⟩ <;>
    · intro hmem
      rcases List.mem_append.mp hmem with h | h <;>
        · revert h
          split <;> simp

/-- Output records of the primary pass are unchanged when the malformed
lines are deleted from the stream. -/
theorem processOutputs_reduceOption (hotels : String → Option Hotel)
    (room_names : RoomKey → Option String) (lines : List (Option Input)) :
    processOutputs hotels room_names lines
      = processOutputs hotels room_names (lines.reduceOption.map some) := by
  induction lines with
  | nil => rfl
  | cons l ls ih =>
      cases l with
      | none => simpa [processOutputs, processLine] using ih
      | some item =>
          simp only [processOutputs, List.reduceOption_cons_of_some, List.map_cons,
            List.filterMap_cons] at ih ⊢
          rw [ih]

/-- Diagnostic counts of the primary pass: one invalid-line diagnostic per
malformed line, and no loader diagnostics. -/
theorem processDiags_count (hotels : String → Option Hotel)
    (room_names : RoomKey → Option String) (lines : List (Option Input)) :
    (processDiags hotels room_names lines).count Diag.invalidLine
        = lines.count none ∧
    (processDiags hotels room_names lines).count Diag.invalidHotelLine = 0 ∧
    (processDiags hotels room_names lines).count Diag.invalidRoomLine = 0 := by
  induction lines with
  | nil => simp [processDiags]
  | cons l ls ih =>
      cases l with
      | none =>
          simp [processDiags, processLine, List.count_cons, ih.1, ih.2.1, ih.2.2]
      | some item =>
          have hf := processRecord_diags_forms hotels room_names item
          simp [processDiags, processLine, List.count_append, ih.1, ih.2.1, ih.2.2,
            List.count_eq_zero.mpr hf.1, List.count_eq_zero.mpr hf.2.1,
            List.count_eq_zero.mpr hf.2.2, List.count_cons]

/-- A loader emits its own malformed-line diagnostic once per rejected
line. -/
theorem lineDiags_count_self {α : Type} [DecidableEq α] (d : Diag) (lines : List (Option α)) :
    (lineDiags d lines).count d = lines.count none := by
  induction lines with
  | nil => rfl
  | cons l ls ih => cases l <;> simp [lineDiags, List.count_cons, ih]

/-- A loader emits no diagnostic other than its own malformed-line one. -/
theorem lineDiags_count_ne {α : Type} {d d' : Diag} (h : d' ≠ d)
    (lines : List (Option α)) : (lineDiags d lines).count d' = 0 := by
  induction lines with
  | nil => rfl
  | cons l ls ih => cases l <;> simp [lineDiags, List.count_cons, ih, h]

/-- C8: malformed lines in any of the three input streams are dropped, each
with one diagnostic of its stream, and the output-record list — order
included — is exactly the one produced when the malformed lines are deleted
from the three streams. -/
theorem c8_malformed_lines_skipped (plines : List (Option Input))
    (hlines : List (Option Hotel)) (rlines : List (Option RoomName)) :
    (pipeline plines hlines rlines).1
      = (pipeline (plines.reduceOption.map some) (hlines.reduceOption.map some)
          (rlines.reduceOption.map some)).1 ∧
    (pipeline plines hlines rlines).2.count Diag.invalidLine = plines.count none ∧
    (pipeline plines hlines rlines).2.count Diag.invalidHotelLine
        = hlines.count none ∧
    (pipeline plines hlines rlines).2.count Diag.invalidRoomLine
        = rlines.count none := by
  have hh : (prepare_hotels (hlines.reduceOption.map some)).1
      = (prepare_hotels hlines).1 := by
    simp [prepare_hotels, reduceOption_map_some]
  have hr : (prepare_room_names (rlines.reduceOption.map some)).1
      = (prepare_room_names rlines).1 := by
    simp [prepare_room_names, reduceOption_map_some]
  have hc := processDiags_count (prepare_hotels hlines).1
    (prepare_room_names rlines).1 plines
  have hd : (pipeline plines hlines rlines).2
      = lineDiags .invalidHotelLine hlines ++ lineDiags .invalidRoomLine rlines
          ++ processDiags (prepare_hotels hlines).1 (prepare_room_names rlines).1
              plines := rfl
  refine ⟨?_, ?_, ?_, ?_⟩
  · simp only [pipeline, process_input, hh, hr]
    exact processOutputs_reduceOption _ _ _
  · rw [hd]
    simp [List.count_append, hc.1,
      lineDiags_count_ne (by decide : Diag.invalidLine ≠ Diag.invalidHotelLine),
      lineDiags_count_ne (by decide : Diag.invalidLine ≠ Diag.invalidRoomLine)]
  · rw [hd]
    simp [List.count_append, hc.2.1, lineDiags_count_self,
      lineDiags_count_ne (by decide : Diag.invalidHotelLine ≠ Diag.invalidRoomLine)]
  · rw [hd]
    simp [List.count_append, hc.2.2, lineDiags_count_self,
      lineDiags_count_ne (by decide : Diag.invalidRoomLine ≠ Diag.invalidHotelLine)]

/-- Counterexample to C10 as stated: a run with no surviving output record
never calls the writer's serialize, so the emitted report is empty — it
does not begin with a header row. -/
theorem c10_counterexample :
    store_output [] = [] ∧
    (store_output []).head? ≠ some (String.intercalate ";" headerFields) := by
  constructor
  · rfl
  · simp [store_output, writeLoop]

/-- The field list of a successfully serialized row lists the record's
fields in the order of the `Output` struct, closing with the price
string. -/
theorem outputFields_spec (o : Output) (fs : List String)
    (h : outputFields o = some fs) :
    ∃ p, serialize_price o.price = some p ∧
      fs = [o.room_type_with_meal, o.room_code, o.source, o.hotel_name,
            o.city_name, o.city_code, o.hotel_category, toString o.pax,
            toString o.adults, toString o.children, o.room_name,
            dateStr o.checkin, dateStr o.checkout, p] := by
  simp only [outputFields] at h
  cases hp : serialize_price o.price with
  | none => rw [hp] at h; exact absurd h (by simp)
  | some p =>
      rw [hp] at h
      simp only [Option.map_some', Option.some.injEq] at h
      exact ⟨p, rfl, h.symm⟩

/-- Every line the writing loop emits — header or data — joins exactly
fourteen fields with the semicolon delimiter. -/
theorem writeLoop_lines (rows : List Output) : ∀ (b : Bool) (line : String),
    line ∈ writeLoop b rows →
    ∃ fs : List String, fs.length = 14 ∧ line = String.intercalate ";" fs := by
  induction rows with
  | nil => intro b line hl; exact absurd hl (by simp [writeLoop])
  | cons o rest ih =>
      intro b line hl
      cases hof : outputFields o with
      | none => rw [writeLoop, hof] at hl; exact absurd hl (by simp)
      | some fs =>
          obtain ⟨p, _, hfs⟩ := outputFields_spec o fs hof
          have hlen : fs.length = 14 := by rw [hfs]; rfl
          rw [writeLoop, hof] at hl
          cases b with
          | true =>
              rcases List.mem_cons.mp hl with hl | hl
              · exact ⟨fs, hlen, hl⟩
              · exact ih true line hl
          | false =>
              rcases List.mem_cons.mp hl with hl | hl
              · exact ⟨headerFields, rfl, hl⟩
              · rcases List.mem_cons.mp hl with hl | hl
                · exact ⟨fs, hlen, hl⟩
                · exact ih true line hl

/-- C10 amended: the header names the fourteen columns in the claimed
order; every line of every report, header and data rows alike, joins
exactly fourteen fields with the semicolon delimiter; a report whose first
record serializes begins with the header row, immediately followed by that
record's fields joined by semicolons; the fields of every data row list
the record's fields in the struct's column order; the hotel-category field
of every enriched record is the fixed-1-decimal rendering of the hotel's
category, which always carries exactly one digit after the decimal
point.  (The header is written only together with the first serialized
record, so a run with no output records emits an empty, headerless
report.) -/
theorem c10_report_format :
    headerFields
      = ["room_type meal", "room_code", "source", "hotel_name", "city_name",
         "city_code", "hotel_category", "pax", "adults", "children",
         "room_name", "checkin", "checkout", "price"] ∧
    (∀ (o : Output) (fs : List String) (rows : List Output),
      outputFields o = some fs →
      store_output (o :: rows)
        = String.intercalate ";" headerFields
            :: String.intercalate ";" fs :: writeLoop true rows) ∧
    (∀ (rows : List Output) (line : String), line ∈ store_output rows →
      ∃ fs : List String, fs.length = 14 ∧ line = String.intercalate ";" fs) ∧
    (∀ (o : Output) (fs : List String), outputFields o = some fs →
      ∃ p, serialize_price o.price = some p ∧
        fs = [o.room_type_with_meal, o.room_code, o.source, o.hotel_name,
              o.city_name, o.city_code, o.hotel_category, toString o.pax,
              toString o.adults, toString o.children, o.room_name,
              dateStr o.checkin, dateStr o.checkout, p]) ∧
    (∀ (input : Input) (hotel : Hotel) (room : String),
      (Output.new input hotel room).hotel_category = fmtFixed1 hotel.category) ∧
    (∀ q : ℚ, ∃ a : String,
      fmtFixed1 q = a ++ "." ++ toString ((roundHalfEven (10 * q)).natAbs % 10) ∧
      (toString ((roundHalfEven (10 * q)).natAbs % 10)).length = 1) := by
  refine ⟨rfl, fun o fs rows hof => ?_, fun rows line => writeLoop_lines rows false line,
    outputFields_spec, fun input hotel room => rfl, fun q => ?_⟩
  · simp [store_output, writeLoop, hof]
  · exact ⟨(if roundHalfEven (10 * q) < 0 then "-" else "")
        ++ toString ((roundHalfEven (10 * q)).natAbs / 10), rfl,
      natRepr_len _ (Nat.mod_lt _ (by norm_num))⟩

/-- The concrete field strings of the good sample row. -/
def goodFields : List String :=
  ["DBL BB", "101", "SRC1", "Grand", "Paris", "PAR", "4.5", "2", "2", "0",
   "Double Room", "0", "1", "50.00"]

/-- Witness for C10's amended statement: the good sample row serializes to
its fourteen concrete fields, and its one-row report begins with the
header row, followed by those fields joined by semicolons. -/
theorem c10_witness :
    outputFields goodRow = some goodFields ∧
    store_output (goodRow :: [])
      = String.intercalate ";" headerFields
          :: String.intercalate ";" goodFields :: writeLoop true [] := by
  have hgp : goodRow.price = FloatVal.finite 50 := by
    simp only [goodRow, Output.new, sampleInput, f32div]
    norm_num
  have hsp : serialize_price goodRow.price = some "50.00" := by
    rw [hgp]
    simp only [serialize_price, priceDisplay]
    rw [show roundAway (100 * (50 : ℚ)) = 5000 by rw [roundAway]; norm_num]
    decide
  have hcat : fmtFixed1 ((9 : ℚ) / 2) = "4.5" := by
    simp only [fmtFixed1]
    rw [show roundHalfEven (10 * ((9 : ℚ) / 2)) = 45 by rw [roundHalfEven]; norm_num]
    decide
  have hfs : outputFields goodRow = some goodFields := by
    simp only [outputFields, hsp, Option.map_some']
    simp only [goodRow, Output.new, sampleInput, grandHotel, dateStr, hcat, goodFields]
    decide
  exact ⟨hfs, c10_report_format.2.1 goodRow goodFields [] hfs⟩

end Anixe
